import Mathlib

/-
Verification of the camera-control and scene-traversal core of the
gltf-viewer application (src/apps/gltf-viewer/utils/cameras.cpp).

Embedding conventions:
  * C++ float arithmetic is modelled by exact real arithmetic over ℝ.
  * glm vectors and matrices become the structures Vec3, Vec4 and Mat4 below;
    Mat4 is parametric in the entry type so that the scene-graph transforms
    (whose claims are algebraic) can also be instantiated at ℤ for decidable
    concrete examples.
  * The one source-level division of the trackball zoom branch
    (viewVector / viewLength) is modelled as partial: the updating function
    returns none when the divisor viewLength is zero, which is the input on
    which the C++ code would produce NaN.  Everywhere else the code divides
    only inside glm normalize calls on vectors that the Camera invariant
    keeps away from zero; those use the Lean convention x / 0 = 0.
  * The scene graph traversal drawNode is recursive with no bound in the
    source (absence of cycles is a stated precondition); the embedding adds
    an explicit fuel argument, and theorems quantify over sufficient fuel.
-/

namespace GltfViewer

/-- Component-wise real 3-vector, the model of glm::vec3. -/
structure Vec3 where
  x : ℝ
  y : ℝ
  z : ℝ

namespace Vec3

instance : Add Vec3 := ⟨fun a b => ⟨a.x + b.x, a.y + b.y, a.z + b.z⟩⟩

instance : Sub Vec3 := ⟨fun a b => ⟨a.x - b.x, a.y - b.y, a.z - b.z⟩⟩

instance : Neg Vec3 := ⟨fun a => ⟨-a.x, -a.y, -a.z⟩⟩

instance : SMul ℝ Vec3 := ⟨fun t a => ⟨t * a.x, t * a.y, t * a.z⟩⟩

instance : Zero Vec3 := ⟨⟨0, 0, 0⟩⟩

/-- Dot product, the model of glm::dot. -/
def dot (a b : Vec3) : ℝ := a.x * b.x + a.y * b.y + a.z * b.z

/-- Cross product, the model of glm::cross. -/
def cross (a b : Vec3) : Vec3 :=
  ⟨a.y * b.z - a.z * b.y, a.z * b.x - a.x * b.z, a.x * b.y - a.y * b.x⟩

/-- Euclidean norm, the model of glm::length. -/
noncomputable def norm (a : Vec3) : ℝ := Real.sqrt (dot a a)

/-- Normalization, the model of glm::normalize (for a zero vector the C++
code would produce NaN components; under the Lean convention it gives the
zero vector, and every theorem that depends on normalize carries a unit-norm
or nonzero hypothesis instead). -/
noncomputable def normalize (a : Vec3) : Vec3 := (norm a)⁻¹ • a

end Vec3

/-- Component-wise real 4-vector, the model of glm::vec4. -/
structure Vec4 where
  x : ℝ
  y : ℝ
  z : ℝ
  w : ℝ

/-- Direction embedding vec4(v, 0) used by the source when transforming
directions. -/
def Vec4.dir (v : Vec3) : Vec4 := ⟨v.x, v.y, v.z, 0⟩

/-- Projection vec3(u) dropping the homogeneous coordinate. -/
def Vec4.toVec3 (u : Vec4) : Vec3 := ⟨u.x, u.y, u.z⟩

/-- Row-major 4 by 4 matrix over an arbitrary commutative ring of entries,
the model of glm::mat4 (entry mij sits in row i, column j; glm stores the
same matrix column-major, which does not change its mathematical action). -/
structure Mat4 (α : Type) where
  m00 : α
  m01 : α
  m02 : α
  m03 : α
  m10 : α
  m11 : α
  m12 : α
  m13 : α
  m20 : α
  m21 : α
  m22 : α
  m23 : α
  m30 : α
  m31 : α
  m32 : α
  m33 : α
deriving DecidableEq

namespace Mat4

variable {α : Type} [CommRing α]

/-- Identity matrix mat4(1). -/
def identity : Mat4 α :=
  ⟨1, 0, 0, 0,
   0, 1, 0, 0,
   0, 0, 1, 0,
   0, 0, 0, 1⟩

/-- Matrix product, the model of glm mat4 multiplication. -/
def mul (a b : Mat4 α) : Mat4 α :=
  ⟨a.m00 * b.m00 + a.m01 * b.m10 + a.m02 * b.m20 + a.m03 * b.m30,
   a.m00 * b.m01 + a.m01 * b.m11 + a.m02 * b.m21 + a.m03 * b.m31,
   a.m00 * b.m02 + a.m01 * b.m12 + a.m02 * b.m22 + a.m03 * b.m32,
   a.m00 * b.m03 + a.m01 * b.m13 + a.m02 * b.m23 + a.m03 * b.m33,
   a.m10 * b.m00 + a.m11 * b.m10 + a.m12 * b.m20 + a.m13 * b.m30,
   a.m10 * b.m01 + a.m11 * b.m11 + a.m12 * b.m21 + a.m13 * b.m31,
   a.m10 * b.m02 + a.m11 * b.m12 + a.m12 * b.m22 + a.m13 * b.m32,
   a.m10 * b.m03 + a.m11 * b.m13 + a.m12 * b.m23 + a.m13 * b.m33,
   a.m20 * b.m00 + a.m21 * b.m10 + a.m22 * b.m20 + a.m23 * b.m30,
   a.m20 * b.m01 + a.m21 * b.m11 + a.m22 * b.m21 + a.m23 * b.m31,
   a.m20 * b.m02 + a.m21 * b.m12 + a.m22 * b.m22 + a.m23 * b.m32,
   a.m20 * b.m03 + a.m21 * b.m13 + a.m22 * b.m23 + a.m23 * b.m33,
   a.m30 * b.m00 + a.m31 * b.m10 + a.m32 * b.m20 + a.m33 * b.m30,
   a.m30 * b.m01 + a.m31 * b.m11 + a.m32 * b.m21 + a.m33 * b.m31,
   a.m30 * b.m02 + a.m31 * b.m12 + a.m32 * b.m22 + a.m33 * b.m32,
   a.m30 * b.m03 + a.m31 * b.m13 + a.m32 * b.m23 + a.m33 * b.m33⟩

/-- Matrix-vector product M * u for real matrices, the model of
glm mat4 times vec4. -/
def mulVec4 (a : Mat4 ℝ) (u : Vec4) : Vec4 :=
  ⟨a.m00 * u.x + a.m01 * u.y + a.m02 * u.z + a.m03 * u.w,
   a.m10 * u.x + a.m11 * u.y + a.m12 * u.z + a.m13 * u.w,
   a.m20 * u.x + a.m21 * u.y + a.m22 * u.z + a.m23 * u.w,
   a.m30 * u.x + a.m31 * u.y + a.m32 * u.z + a.m33 * u.w⟩

end Mat4

/-- Rotation of the vector v by the given angle (radians) about the given
unit axis, written with the Rodrigues formula.  This is the specification
notion of rotating a vector about an axis; the theorem
glmRotate_dir_eq_rotateVec connects it to the glm matrix the source builds. -/
noncomputable def rotateVec (angle : ℝ) (axis v : Vec3) : Vec3 :=
  Real.cos angle • v + Real.sin angle • Vec3.cross axis v
    + ((1 - Real.cos angle) * Vec3.dot axis v) • axis

/-- Rotation matrix built by glm::rotate(mat4(1), angle, v): glm normalizes
the axis, then fills in the axis-angle matrix (entries transcribed from
glm::rotate; glm stores columns, the rows below are the same matrix). -/
noncomputable def glmRotate (angle : ℝ) (v : Vec3) : Mat4 ℝ :=
  let a := Vec3.normalize v
  let c := Real.cos angle
  let s := Real.sin angle
  ⟨c + (1 - c) * a.x * a.x, (1 - c) * a.x * a.y - s * a.z, (1 - c) * a.x * a.z + s * a.y, 0,
   (1 - c) * a.x * a.y + s * a.z, c + (1 - c) * a.y * a.y, (1 - c) * a.y * a.z - s * a.x, 0,
   (1 - c) * a.x * a.z - s * a.y, (1 - c) * a.y * a.z + s * a.x, c + (1 - c) * a.z * a.z, 0,
   0, 0, 0, 1⟩

/-- Camera state: the stored eye, center and up vectors.
Modelled from the spec: the Camera class lives in cameras.hpp, which is not
among the staged source files; the spec gives its data as
eye, center, up with derived front, left and the motion primitives below. -/
structure Camera where
  eye : Vec3
  center : Vec3
  up : Vec3

namespace Camera

/-- Modelled from the spec: front = normalize(center - eye). -/
noncomputable def front (cam : Camera) : Vec3 := Vec3.normalize (cam.center - cam.eye)

/-- Modelled from the spec: left = normalize(cross(up, front)). -/
noncomputable def left (cam : Camera) : Vec3 := Vec3.normalize (Vec3.cross cam.up cam.front)

/-- Modelled from the spec: moveLocal translates eye and center together by
truckLeft * left + pedestalUp * up + dollyIn * front, preserving the look
direction. -/
noncomputable def moveLocal (cam : Camera) (truckLeft pedestalUp dollyIn : ℝ) : Camera :=
  let t := truckLeft • cam.left + pedestalUp • cam.up + dollyIn • cam.front
  ⟨cam.eye + t, cam.center + t, cam.up⟩

/-- Modelled from the spec: rotateLocal rotates the view direction and up
vector about the cameras own left, up and front axes by the given angles,
keeping eye fixed and recomputing center at the original distance.  The spec
fixes the axes but not the internal composition order; the choice below
(roll about front on up, tilt about left then local pan about up on front)
is irrelevant to every claim, which treat rotateLocal as one opaque step. -/
noncomputable def rotateLocal (cam : Camera) (rollAngle tiltAngle panLocalAngle : ℝ) : Camera :=
  let u1 := rotateVec rollAngle cam.front cam.up
  let f1 := rotateVec tiltAngle cam.left cam.front
  let f2 := rotateVec panLocalAngle cam.up f1
  ⟨cam.eye, cam.eye + Vec3.norm (cam.center - cam.eye) • f2, u1⟩

/-- Modelled from the spec: rotateWorld rotates the view direction (and the
up vector, so the frame stays coherent) about an externally supplied axis
with eye fixed. -/
noncomputable def rotateWorld (cam : Camera) (angle : ℝ) (axis : Vec3) : Camera :=
  ⟨cam.eye, cam.eye + rotateVec angle axis (cam.center - cam.eye),
   rotateVec angle axis cam.up⟩

end Camera

/-- Distance from eye to center, length(center - eye) of the source. -/
noncomputable def camDist (cam : Camera) : ℝ := Vec3.norm (cam.center - cam.eye)

/-- Point-in-time input state consumed by one TrackballCameraController
update call: the two modifier keys the branch dispatch reads and the cursor
delta computed from the middle-button drag (delta is (0,0) whenever the
middle button is not held, exactly as in the source). -/
structure TrackballInput where
  shiftHeld : Bool
  ctrlHeld : Bool
  cursorDelta : ℝ × ℝ

/-- Zoom-in clamp of the source: a positive movement is capped at
viewLength - 1e-4, a non-positive movement is left alone. -/
noncomputable def clampZoom (movement viewLength : ℝ) : ℝ :=
  if 0 < movement then min movement (viewLength - 1 / 10000) else movement

/-- Model of TrackballCameraController::update.  Returns the did-change
Boolean and the updated camera; returns none exactly when the zoom branch
divides viewVector by a zero viewLength (the input on which the C++ float
code produces NaN).  The member m_worldUpAxis is passed as wUp. -/
noncomputable def trackballUpdate (wUp : Vec3) (inp : TrackballInput) (cam : Camera) :
    Option (Bool × Camera) :=
  let horizontalMovement := (1 / 100 : ℝ) * inp.cursorDelta.1
  let verticalMovement := (1 / 100 : ℝ) * inp.cursorDelta.2
  if horizontalMovement = 0 ∧ verticalMovement = 0 then some (false, cam)
  else if inp.shiftHeld then some (true, cam.moveLocal horizontalMovement 0 0)
  else if inp.ctrlHeld then
    if horizontalMovement = 0 then some (false, cam)
    else
      let viewVector := cam.center - cam.eye
      let viewLength := Vec3.norm viewVector
      if viewLength = 0 then none
      else
        let movement := clampZoom horizontalMovement viewLength
        let front := viewLength⁻¹ • viewVector
        some (true, ⟨cam.eye + movement • front, cam.center, wUp⟩)
  else
    let depthAxis := cam.eye - cam.center
    let longitudeRotationMatrix := glmRotate verticalMovement cam.left
    let rotatedDepthAxis := (longitudeRotationMatrix.mulVec4 (Vec4.dir depthAxis)).toVec3
    let latitudeRotationMatrix := glmRotate (-horizontalMovement) wUp
    let result := (latitudeRotationMatrix.mulVec4 (Vec4.dir rotatedDepthAxis)).toVec3
    some (true, ⟨cam.center + result, cam.center, wUp⟩)

/-- Iterated zoom frames: each list element is one cursor-delta x value fed
to an update call with the zoom modifier held (Ctrl, Shift up). -/
noncomputable def zoomSeq (wUp : Vec3) : List ℝ → Camera → Option Camera
  | [], cam => some cam
  | d :: ds, cam =>
    match trackballUpdate wUp ⟨false, true, (d, 0)⟩ cam with
    | none => none
    | some (_, cam2) => zoomSeq wUp ds cam2

/-- Point-in-time input state consumed by one FirstPersonCameraController
update call: the eight keys read by the source and the cursor delta of the
left-button drag (delta is (0,0) whenever the left button is not held). -/
structure FirstPersonInput where
  keyW : Bool
  keyA : Bool
  keyS : Bool
  keyD : Bool
  keyUpArrow : Bool
  keyDownArrow : Bool
  keyQ : Bool
  keyE : Bool
  cursorDelta : ℝ × ℝ

/-- Accumulated truckLeft of the source: +speed*time for A, -speed*time for D. -/
noncomputable def fpTruckLeft (speed elapsedTime : ℝ) (inp : FirstPersonInput) : ℝ :=
  (if inp.keyA then speed * elapsedTime else 0) +
    (if inp.keyD then -(speed * elapsedTime) else 0)

/-- Accumulated pedestalUp of the source: +speed*time for UP, -speed*time for DOWN. -/
noncomputable def fpPedestalUp (speed elapsedTime : ℝ) (inp : FirstPersonInput) : ℝ :=
  (if inp.keyUpArrow then speed * elapsedTime else 0) +
    (if inp.keyDownArrow then -(speed * elapsedTime) else 0)

/-- Accumulated dollyIn of the source: +speed*time for W, -speed*time for S. -/
noncomputable def fpDollyIn (speed elapsedTime : ℝ) (inp : FirstPersonInput) : ℝ :=
  (if inp.keyW then speed * elapsedTime else 0) +
    (if inp.keyS then -(speed * elapsedTime) else 0)

/-- Accumulated rollRightAngle of the source: -0.001 for Q, +0.001 for E,
a fixed per-frame step not scaled by elapsed time. -/
noncomputable def fpRollRightAngle (inp : FirstPersonInput) : ℝ :=
  (if inp.keyQ then -(1 / 1000 : ℝ) else 0) + (if inp.keyE then (1 / 1000 : ℝ) else 0)

/-- Pan angle of the source: panLeftAngle = -0.01 * cursorDelta.x. -/
noncomputable def fpPanLeftAngle (inp : FirstPersonInput) : ℝ := -(1 / 100 : ℝ) * inp.cursorDelta.1

/-- Tilt angle of the source: tiltDownAngle = 0.01 * cursorDelta.y. -/
noncomputable def fpTiltDownAngle (inp : FirstPersonInput) : ℝ := (1 / 100 : ℝ) * inp.cursorDelta.2

/-- Model of FirstPersonCameraController::update: accumulate the six motion
quantities, return false on an all-zero frame (the float truthiness test
hasMoved of the source), otherwise apply moveLocal, rotateLocal, rotateWorld
in that order and return true. -/
noncomputable def firstPersonUpdate (wUp : Vec3) (speed elapsedTime : ℝ)
    (inp : FirstPersonInput) (cam : Camera) : Bool × Camera :=
  let truckLeft := fpTruckLeft speed elapsedTime inp
  let pedestalUp := fpPedestalUp speed elapsedTime inp
  let dollyIn := fpDollyIn speed elapsedTime inp
  let rollRightAngle := fpRollRightAngle inp
  let panLeftAngle := fpPanLeftAngle inp
  let tiltDownAngle := fpTiltDownAngle inp
  if truckLeft ≠ 0 ∨ pedestalUp ≠ 0 ∨ dollyIn ≠ 0 ∨ panLeftAngle ≠ 0 ∨
      tiltDownAngle ≠ 0 ∨ rollRightAngle ≠ 0 then
    (true,
      ((cam.moveLocal truckLeft pedestalUp dollyIn).rotateLocal rollRightAngle
          tiltDownAngle 0).rotateWorld panLeftAngle wUp)
  else (false, cam)

/-- Scene node as the traversal consumes it: the local transform, the mesh
index (negative when the node has no mesh, mirroring the tinygltf sentinel)
and the child index list.
Modelled from the spec for the transform: the source computes the local
matrix through getLocalToWorldMatrix(node, parentMatrix), whose definition
(explicit matrix, or translation * rotation * scale) is not among the staged
files; the spec states localToWorld = parentTransform * node.localTransform,
so the node here carries its resulting local matrix directly. -/
structure SceneNode (α : Type) where
  localTransform : Mat4 α
  mesh : Int
  children : List Nat

/-- Visit trace of the recursive drawNode lambda: the list of
(node index, modelMatrix) pairs in the order the source visits them — the
node itself first (its uniforms and draws are issued there), then the
children in listed order, each with modelMatrix as the new parent matrix.
The fuel argument bounds the recursion depth; the source recurses without a
bound and relies on the loader precondition that the graph is acyclic. -/
def drawNode {α : Type} [CommRing α] (nodes : List (SceneNode α)) :
    Nat → Nat → Mat4 α → List (Nat × Mat4 α)
  | 0, _, _ => []
  | fuel + 1, nodeIdx, parentMatrix =>
    match nodes[nodeIdx]? with
    | none => []
    | some node =>
      let modelMatrix := parentMatrix.mul node.localTransform
      (nodeIdx, modelMatrix) ::
        (node.children.map (fun c => drawNode nodes fuel c modelMatrix)).flatten

/-- One frame of the root loop of ViewerApplication::run: drawNode is called
once per root of the default scene, with the identity parent matrix. -/
def drawAllNodes {α : Type} [CommRing α] (nodes : List (SceneNode α))
    (roots : List Nat) (fuel : Nat) : List (Nat × Mat4 α) :=
  (roots.map (fun r => drawNode nodes fuel r Mat4.identity)).flatten

/-- Number of child-edge paths of length below the fuel bound from node i to
node j (the trivial path counts when i = j and i is in range).  The
recursion mirrors drawNode exactly, so the visit count of a node equals its
path count. -/
def countPaths {α : Type} (nodes : List (SceneNode α)) : Nat → Nat → Nat → Nat
  | 0, _, _ => 0
  | fuel + 1, i, j =>
    match nodes[i]? with
    | none => 0
    | some node =>
      (if i = j then 1 else 0) + (node.children.map (fun c => countPaths nodes fuel c j)).sum

/-- Total number of root-to-j paths over the scene root list. -/
def totalPaths {α : Type} (nodes : List (SceneNode α)) (roots : List Nat)
    (fuel : Nat) (j : Nat) : Nat :=
  (roots.map (fun r => countPaths nodes fuel r j)).sum

/-- Proposition: p lists the nodes of a child-edge path from i to j,
both endpoints included, every listed node in range. -/
inductive IsPath {α : Type} (nodes : List (SceneNode α)) : Nat → List Nat → Nat → Prop where
  | single (i : Nat) (node : SceneNode α) (h : nodes[i]? = some node) :
      IsPath nodes i [i] i
  | cons (i c j : Nat) (p : List Nat) (node : SceneNode α)
      (h : nodes[i]? = some node) (hc : c ∈ node.children)
      (hp : IsPath nodes c p j) : IsPath nodes i (i :: p) j

/-- Local transform of the node at index k (identity when out of range;
IsPath keeps every path index in range, so the default never contributes). -/
def localOf {α : Type} [CommRing α] (nodes : List (SceneNode α)) (k : Nat) : Mat4 α :=
  match nodes[k]? with
  | some node => node.localTransform
  | none => Mat4.identity

/-- Product of the local transforms along a path, root end first. -/
def pathProd {α : Type} [CommRing α] (nodes : List (SceneNode α)) : List Nat → Mat4 α
  | [] => Mat4.identity
  | k :: ks => (localOf nodes k).mul (pathProd nodes ks)

/-- Translation matrix by (tx, ty, tz), as produced for a pure-translation
node. -/
def translationMat {α : Type} [CommRing α] (tx ty tz : α) : Mat4 α :=
  ⟨1, 0, 0, tx,
   0, 1, 0, ty,
   0, 0, 1, tz,
   0, 0, 0, 1⟩

/-- Chain scene of the spec example: node 0 translates by (1,0,0) and has
child 1, node 1 translates by (0,1,0) and has child 2, node 2 translates by
(0,0,1); no meshes. -/
def exampleChain : List (SceneNode ℤ) :=
  [⟨translationMat 1 0 0, -1, [1]⟩,
   ⟨translationMat 0 1 0, -1, [2]⟩,
   ⟨translationMat 0 0 1, -1, []⟩]

/-- Acyclic scene with sharing: roots 0 and 1 both list node 2 as their only
child, so node 2 is reachable along two distinct paths. -/
def exampleShared : List (SceneNode ℤ) :=
  [⟨Mat4.identity, -1, [2]⟩,
   ⟨Mat4.identity, -1, [2]⟩,
   ⟨Mat4.identity, -1, []⟩]

/-- Accessor fields the draw-submission code reads (tinygltf::Accessor). -/
structure GAccessor where
  bufferView : Nat
  byteOffset : Nat
  componentType : Nat
  count : Nat
deriving DecidableEq

/-- Buffer-view fields the draw-submission code reads (tinygltf::BufferView). -/
structure GBufferView where
  buffer : Nat
  byteOffset : Nat
  byteStride : Nat
  target : Nat
deriving DecidableEq

/-- Primitive fields the draw-submission code reads (tinygltf::Primitive):
the topology mode, the index-accessor index with the tinygltf sentinel -1
for a primitive with no index accessor, and the accessor indices of the
attribute map in its key order (std::map iterates keys sorted, and the
source reads only the mapped accessor index of the first entry). -/
structure GPrimitive where
  mode : Nat
  indices : Int
  attributes : List Nat
deriving DecidableEq

/-- Draw call issued for one primitive: glDrawElements with
(mode, count, componentType, byte offset) or glDrawArrays with
(mode, first, count). -/
inductive DrawCall where
  | elements (mode count componentType byteOffset : Nat)
  | arrays (mode first count : Nat)
deriving DecidableEq

/-- Draw-parameter derivation of the primitive loop of drawNode in
ViewerApplication::run: indexed draw when primitive.indices >= 0, with count
and component type from the index accessor and byte offset
accessor.byteOffset + bufferView.byteOffset; otherwise a non-indexed draw
whose count comes from the first attribute accessor.  Returns none exactly
on the loader-precondition violations (an accessor or buffer-view index out
of range, or an index-free primitive with no attributes, where the source
would dereference past the end of the map). -/
def drawPrimitive (accessors : List GAccessor) (bufferViews : List GBufferView)
    (p : GPrimitive) : Option DrawCall :=
  if 0 ≤ p.indices then
    match accessors[p.indices.toNat]? with
    | none => none
    | some accessor =>
      match bufferViews[accessor.bufferView]? with
      | none => none
      | some bufferView =>
        some (DrawCall.elements p.mode accessor.count accessor.componentType
          (accessor.byteOffset + bufferView.byteOffset))
  else
    match p.attributes.head? with
    | none => none
    | some accessorIdx =>
      match accessors[accessorIdx]? with
      | none => none
      | some accessor => some (DrawCall.arrays p.mode 0 accessor.count)

/-- World up axis (0,1,0) used by the concrete instances below. -/
def worldUpY : Vec3 := ⟨0, 1, 0⟩

/-- Concrete camera one unit behind the origin along z, used by the concrete
instances below. -/
def cameraAtUnitZ : Camera := ⟨⟨0, 0, 1⟩, ⟨0, 0, 0⟩, ⟨0, 1, 0⟩⟩

/-- Two synthetic accessors for the claim C6 witness: accessor 0 is an index
accessor (unsigned-short indices, count 36, byte offset 8 into buffer-view
0), accessor 1 a float attribute accessor with count 24. -/
def exampleAccessors : List GAccessor := [⟨0, 8, 5123, 36⟩, ⟨1, 0, 5126, 24⟩]

/-- Two synthetic buffer views for the claim C6 witness. -/
def exampleBufferViews : List GBufferView := [⟨0, 100, 0, 34963⟩, ⟨0, 0, 12, 34962⟩]

/-- Synthetic triangle primitive with an index accessor. -/
def examplePrimIndexed : GPrimitive := ⟨4, 0, [1]⟩

/-- Synthetic triangle primitive without an index accessor (sentinel -1). -/
def examplePrimNonIndexed : GPrimitive := ⟨4, -1, [1]⟩

/-- View-space light direction written by the drawScene lambda: the fixed
vector (0,0,1) when the light is attached to the camera, otherwise
normalize(vec3(viewMatrix * vec4(lightDirection, 0))). -/
noncomputable def drawSceneLightDir (lightFromCamera : Bool) (viewMatrix : Mat4 ℝ)
    (lightDirection : Vec3) : Vec3 :=
  if lightFromCamera then ⟨0, 0, 1⟩
  else Vec3.normalize (viewMatrix.mulVec4 (Vec4.dir lightDirection)).toVec3

/-- Input frame with only the forward key held, for the claim C5 witness. -/
def exampleInputW : FirstPersonInput :=
  ⟨true, false, false, false, false, false, false, false, (0, 0)⟩

namespace Vec3

@[ext] theorem extComponents {a b : Vec3} (hx : a.x = b.x) (hy : a.y = b.y) (hz : a.z = b.z) : a = b := by
  cases a; cases b; simp_all

@[simp] theorem add_def (a b : Vec3) : a + b = ⟨a.x + b.x, a.y + b.y, a.z + b.z⟩ := rfl

@[simp] theorem sub_def (a b : Vec3) : a - b = ⟨a.x - b.x, a.y - b.y, a.z - b.z⟩ := rfl

@[simp] theorem neg_def (a : Vec3) : -a = ⟨-a.x, -a.y, -a.z⟩ := rfl

@[simp] theorem smul_def (t : ℝ) (a : Vec3) : t • a = ⟨t * a.x, t * a.y, t * a.z⟩ := rfl

@[simp] theorem zero_def : (0 : Vec3) = ⟨0, 0, 0⟩ := rfl

theorem dot_self_nonneg (a : Vec3) : 0 ≤ dot a a := by
  have := sq_nonneg a.x
  have := sq_nonneg a.y
  have := sq_nonneg a.z
  simp only [dot]
  nlinarith

theorem norm_nonneg (a : Vec3) : 0 ≤ norm a := Real.sqrt_nonneg _

@[simp] theorem norm_zero : norm (0 : Vec3) = 0 := by
  simp [norm, dot]

theorem norm_smul (t : ℝ) (a : Vec3) : norm (t • a) = |t| * norm a := by
  simp only [norm, dot, smul_def]
  rw [show t * a.x * (t * a.x) + t * a.y * (t * a.y) + t * a.z * (t * a.z)
      = t ^ 2 * (a.x * a.x + a.y * a.y + a.z * a.z) by ring]
  rw [Real.sqrt_mul (sq_nonneg t), Real.sqrt_sq_eq_abs]

theorem normalize_of_norm_one {a : Vec3} (h : norm a = 1) : normalize a = a := by
  simp [normalize, h]

end Vec3

namespace Mat4

variable {α : Type} [CommRing α]

theorem mulAssoc (a b c : Mat4 α) : mul (mul a b) c = mul a (mul b c) := by
  cases a; cases b; cases c
  simp only [mul, mk.injEq]
  refine ⟨?_, ?_, ?_, ?_, ?_, ?_, ?_, ?_, ?_, ?_, ?_, ?_, ?_, ?_, ?_, ?_⟩ <;> ring

theorem oneMul (a : Mat4 α) : mul identity a = a := by
  cases a
  simp only [mul, identity, mk.injEq]
  refine ⟨?_, ?_, ?_, ?_, ?_, ?_, ?_, ?_, ?_, ?_, ?_, ?_, ?_, ?_, ?_, ?_⟩ <;> ring

theorem mulOne (a : Mat4 α) : mul a identity = a := by
  cases a
  simp only [mul, identity, mk.injEq]
  refine ⟨?_, ?_, ?_, ?_, ?_, ?_, ?_, ?_, ?_, ?_, ?_, ?_, ?_, ?_, ?_, ?_⟩ <;> ring

end Mat4

/-- For a unit axis the glm rotation matrix applied to a direction vector
computes exactly the Rodrigues rotation. -/
theorem glmRotate_dir_eq_rotateVec (angle : ℝ) (axis v : Vec3)
    (h : Vec3.norm axis = 1) :
    ((glmRotate angle axis).mulVec4 (Vec4.dir v)).toVec3 = rotateVec angle axis v := by
  have hn : Vec3.normalize axis = axis := Vec3.normalize_of_norm_one h
  simp only [glmRotate, hn, Mat4.mulVec4, Vec4.dir, Vec4.toVec3, rotateVec,
    Vec3.cross, Vec3.dot, Vec3.smul_def, Vec3.add_def]
  refine Vec3.extComponents ?_ ?_ ?_ <;> simp <;> ring

/-- Visit counts of the traversal: a node index appears in the visit trace
of drawNode exactly as many times as there are child-edge paths to it from
the start index (within the fuel bound). -/
theorem count_drawNode {α : Type} [CommRing α] (nodes : List (SceneNode α)) (j : Nat) :
    ∀ (fuel i : Nat) (P : Mat4 α),
      ((drawNode nodes fuel i P).map Prod.fst).count j = countPaths nodes fuel i j := by
  intro fuel
  induction fuel with
  | zero => intro i P; simp [drawNode, countPaths]
  | succ fuel ih =>
    intro i P
    cases h : nodes[i]? with
    | none => simp [drawNode, countPaths, h]
    | some node =>
      simp only [drawNode, countPaths, h, List.map_cons, List.count_cons,
        List.map_flatten, List.map_map, List.count_flatten]
      rw [Nat.add_comm]
      congr 1
      · simp [beq_iff_eq]
      · congr 1
        apply List.map_congr_left
        intro c _
        simpa [Function.comp] using ih c (P.mul node.localTransform)

/-- Transform soundness of the traversal: every visited pair carries the
parent matrix times the product of the local transforms along some
child-edge path from the start index to the visited node. -/
theorem drawNode_mem_path {α : Type} [CommRing α] (nodes : List (SceneNode α)) (j : Nat) :
    ∀ (fuel i : Nat) (P : Mat4 α) (M : Mat4 α), (j, M) ∈ drawNode nodes fuel i P →
      ∃ p, IsPath nodes i p j ∧ M = P.mul (pathProd nodes p) := by
  intro fuel
  induction fuel with
  | zero => intro i P M hmem; simp [drawNode] at hmem
  | succ fuel ih =>
    intro i P M hmem
    cases h : nodes[i]? with
    | none => simp [drawNode, h] at hmem
    | some node =>
      simp only [drawNode, h, List.mem_cons, List.mem_flatten, List.mem_map] at hmem
      rcases hmem with heq | ⟨l, ⟨c, hc, rfl⟩, hmem⟩
      · simp only [Prod.mk.injEq] at heq
        obtain ⟨rfl, rfl⟩ := heq
        refine ⟨[j], IsPath.single j node h, ?_⟩
        simp [pathProd, localOf, h, Mat4.mulOne]
      · obtain ⟨p, hp, rfl⟩ := ih c (P.mul node.localTransform) M hmem
        refine ⟨i :: p, IsPath.cons i c j p node h hc hp, ?_⟩
        simp [pathProd, localOf, h, Mat4.mulAssoc]

/-- Completeness of the traversal: a node at the end of a path within the
fuel bound is visited. -/
theorem path_mem_drawNode {α : Type} [CommRing α] (nodes : List (SceneNode α)) :
    ∀ {i : Nat} {p : List Nat} {j : Nat}, IsPath nodes i p j →
      ∀ (fuel : Nat), p.length ≤ fuel → ∀ (P : Mat4 α),
        j ∈ (drawNode nodes fuel i P).map Prod.fst := by
  intro i p j hpath
  induction hpath with
  | single i node h =>
    intro fuel hlen P
    cases fuel with
    | zero => simp at hlen
    | succ fuel => simp [drawNode, h]
  | cons i c j p node h hc hp ih =>
    intro fuel hlen P
    cases fuel with
    | zero => simp at hlen
    | succ fuel =>
      have hlen2 : p.length ≤ fuel := by simpa using hlen
      simp only [drawNode, h, List.map_cons, List.mem_cons, List.map_flatten,
        List.map_map, List.mem_flatten, List.mem_map]
      refine Or.inr ⟨(drawNode nodes fuel c (P.mul node.localTransform)).map Prod.fst,
        ⟨c, hc, rfl⟩, ?_⟩
      exact ih fuel hlen2 (P.mul node.localTransform)

/-- Claim C2 (amended): for every scene graph, one frame of the traversal
visits a node index j exactly as many times as there are root-to-j paths
within the fuel bound — in particular exactly once whenever the graph
restricted to the root list is a forest, that is j is reached by exactly one
path, as the spec notes is the case in practice.  Each root starts with the
identity parent transform, every visited pair carries the product of the
local transforms along its root-to-node path, children are visited
depth-first in listed order, and the spec example of three nested
translations (1,0,0), (0,1,0), (0,0,1) composes to a translation by
(1,1,1). -/
theorem scene_traversal_visits_eq_paths {α : Type} [CommRing α]
    (nodes : List (SceneNode α)) (roots : List Nat) (fuel : Nat) (j : Nat) :
    (((drawAllNodes nodes roots fuel).map Prod.fst).count j = totalPaths nodes roots fuel j)
    ∧ (totalPaths nodes roots fuel j = 1 →
        ((drawAllNodes nodes roots fuel).map Prod.fst).count j = 1)
    ∧ (∀ M : Mat4 α, (j, M) ∈ drawAllNodes nodes roots fuel →
        ∃ r ∈ roots, ∃ p, IsPath nodes r p j ∧ M = pathProd nodes p)
    ∧ (∀ r ∈ roots, ∀ p, IsPath nodes r p j → p.length ≤ fuel →
        j ∈ (drawAllNodes nodes roots fuel).map Prod.fst)
    ∧ (drawAllNodes exampleChain [0] 3 =
        [(0, translationMat 1 0 0), (1, translationMat 1 1 0), (2, translationMat 1 1 1)]) := by
  have hcount : ((drawAllNodes nodes roots fuel).map Prod.fst).count j
      = totalPaths nodes roots fuel j := by
    simp only [drawAllNodes, totalPaths, List.map_flatten, List.map_map, List.count_flatten]
    congr 1
    apply List.map_congr_left
    intro r _
    simpa [Function.comp] using count_drawNode nodes j fuel r Mat4.identity
  refine ⟨hcount, fun h1 => hcount.trans h1, ?_, ?_, ?_⟩
  · intro M hmem
    simp only [drawAllNodes, List.mem_flatten, List.mem_map] at hmem
    obtain ⟨l, ⟨r, hr, rfl⟩, hmem⟩ := hmem
    obtain ⟨p, hp, rfl⟩ := drawNode_mem_path nodes j fuel r Mat4.identity M hmem
    exact ⟨r, hr, p, hp, Mat4.oneMul _⟩
  · intro r hr p hp hlen
    simp only [drawAllNodes, List.map_flatten, List.map_map, List.mem_flatten, List.mem_map]
    refine ⟨(drawNode nodes fuel r Mat4.identity).map Prod.fst, ⟨r, hr, rfl⟩, ?_⟩
    exact path_mem_drawNode nodes hp fuel hlen Mat4.identity
  · decide

/-- Claim C2 witness: on the three-translation chain of the spec example,
node 2 is reached by exactly one path and the frame traversal visits it
exactly once. -/
theorem scene_traversal_witness :
    totalPaths exampleChain [0] 3 2 = 1 ∧
      ((drawAllNodes exampleChain [0] 3).map Prod.fst).count 2 = 1 :=
  ⟨by decide, (scene_traversal_visits_eq_paths exampleChain [0] 3 2).2.1 (by decide)⟩

/-- Claim C2 counterexample: the scene graph with roots 0 and 1 both listing
node 2 as their child is acyclic, yet one frame visits the reachable node 2
twice, not exactly once — the claim over every acyclic graph fails, only the
forest (unique-path) form holds. -/
theorem scene_traversal_shared_child_twice :
    2 ∈ (drawAllNodes exampleShared [0, 1] 3).map Prod.fst ∧
      ((drawAllNodes exampleShared [0, 1] 3).map Prod.fst).count 2 = 2 := by decide

/-- Unfolding of the zoom branch: with a nonzero cursor-delta x and a
nonzero view length, the update translates the eye by the clamped movement
along the normalized view vector, keeps the center, and returns true. -/
theorem trackball_zoom_eq (wUp : Vec3) (d : ℝ) (cam : Camera)
    (hd : d ≠ 0) (hL : camDist cam ≠ 0) :
    trackballUpdate wUp ⟨false, true, (d, 0)⟩ cam =
      some (true, ⟨cam.eye + clampZoom ((1 / 100) * d) (camDist cam) •
        ((camDist cam)⁻¹ • (cam.center - cam.eye)), cam.center, wUp⟩) := by
  have hd100 : (1 / 100 : ℝ) * d ≠ 0 := mul_ne_zero (by norm_num) hd
  simp only [trackballUpdate, camDist] at *
  rw [if_neg (by simp [hd100, hd]), if_neg (by simp), if_pos trivial, if_neg hd100, if_neg hL]

/-- Eye-to-center distance after translating the eye by c along the
normalized view vector: the old distance minus c, provided c stays below the
old distance. -/
theorem dist_after_zoom (cam : Camera) (wUp : Vec3) (c : ℝ)
    (hL : 0 < camDist cam) (hc : c < camDist cam) :
    camDist ⟨cam.eye + c • ((camDist cam)⁻¹ • (cam.center - cam.eye)), cam.center, wUp⟩
      = camDist cam - c := by
  have hv : cam.center - (cam.eye + c • ((camDist cam)⁻¹ • (cam.center - cam.eye)))
      = (1 - c * (camDist cam)⁻¹) • (cam.center - cam.eye) := by
    ext <;> simp <;> ring
  have hL0 : camDist cam ≠ 0 := ne_of_gt hL
  simp only [camDist] at hv
  calc camDist ⟨cam.eye + c • ((camDist cam)⁻¹ • (cam.center - cam.eye)), cam.center, wUp⟩
      = Vec3.norm ((1 - c * (camDist cam)⁻¹) • (cam.center - cam.eye)) := by
        simp only [camDist]
        rw [hv]
    _ = |1 - c * (camDist cam)⁻¹| * camDist cam := Vec3.norm_smul _ _
    _ = (1 - c * (camDist cam)⁻¹) * camDist cam := by
        rw [abs_of_pos]
        have : c * (camDist cam)⁻¹ < 1 := by
          rw [← div_eq_mul_inv]
          exact (div_lt_one hL).mpr hc
        linarith
    _ = camDist cam - c := by field_simp

/-- The clamped zoom movement always stays below the view length. -/
theorem clampZoom_lt (m L : ℝ) (hL : 0 < L) : clampZoom m L < L := by
  unfold clampZoom
  split_ifs with h
  · exact lt_of_le_of_lt (min_le_right _ _) (by linarith)
  · linarith [not_lt.mp h]

/-- The distance left after a clamped zoom movement is positive. -/
theorem clampZoom_dist_pos (m L : ℝ) (hL : 0 < L) : 0 < L - clampZoom m L := by
  unfold clampZoom
  split_ifs with h
  · have : min m (L - 1 / 10000) ≤ L - 1 / 10000 := min_le_right _ _
    linarith
  · have := not_lt.mp h
    linarith

/-- A zoom-out (non-positive) movement is never clamped. -/
theorem clampZoom_of_nonpos (m L : ℝ) (hm : m ≤ 0) : clampZoom m L = m := by
  unfold clampZoom
  rw [if_neg (not_lt.mpr hm)]

/-- A zoom frame with a zero cursor delta returns false and leaves the
camera untouched. -/
theorem zoomSeq_step_zero (wUp : Vec3) (cam : Camera) :
    trackballUpdate wUp ⟨false, true, (0, 0)⟩ cam = some (false, cam) := by
  simp [trackballUpdate]

/-- Concrete eye-to-center distance of cameraAtUnitZ. -/
theorem camDist_cameraAtUnitZ : camDist cameraAtUnitZ = 1 := by
  simp only [camDist, cameraAtUnitZ, Vec3.sub_def, Vec3.norm, Vec3.dot]
  norm_num

/-- Claim C1: starting from any camera with positive eye-to-center distance,
any sequence of zoom frames (zoom modifier held) keeps the eye strictly away
from the center: zooming in is capped at viewLength - 1e-4 before the eye is
translated along normalize(center - eye), so the distance stays positive
after every step of the sequence. -/
theorem trackball_zoom_eye_never_reaches_center (wUp : Vec3) (deltas : List ℝ)
    (cam : Camera) (h : 0 < camDist cam) :
    ∃ cam2, zoomSeq wUp deltas cam = some cam2 ∧ 0 < camDist cam2 := by
  induction deltas generalizing cam with
  | nil => exact ⟨cam, rfl, h⟩
  | cons d ds ih =>
    by_cases hd : d = 0
    · subst hd
      simp only [zoomSeq, zoomSeq_step_zero]
      exact ih cam h
    · have hstep := trackball_zoom_eq wUp d cam hd (ne_of_gt h)
      simp only [zoomSeq, hstep]
      have hdist := dist_after_zoom cam wUp (clampZoom ((1 / 100) * d) (camDist cam)) h
        (clampZoom_lt _ _ h)
      refine ih _ ?_
      rw [hdist]
      exact clampZoom_dist_pos _ _ h

/-- Claim C1 witness: from the unit-distance camera, one large zoom-in frame
(cursor-delta x = 200, so an unclamped movement of 2 would overshoot the
center) still leaves the eye strictly away from the center. -/
theorem trackball_zoom_eye_never_reaches_center_witness :
    0 < camDist cameraAtUnitZ ∧
      ∃ cam2, zoomSeq worldUpY [200] cameraAtUnitZ = some cam2 ∧ 0 < camDist cam2 := by
  have h : 0 < camDist cameraAtUnitZ := by rw [camDist_cameraAtUnitZ]; norm_num
  exact ⟨h, trackball_zoom_eye_never_reaches_center worldUpY [200] cameraAtUnitZ h⟩

/-- Claim C7 (amended): for every camera whose view length is positive —
including arbitrarily small positive view lengths — the zoom branch is total:
it divides by the nonzero view length only, and the clamp leaves a
well-defined new eye at a positive distance from the center.  When the view
length is exactly zero (eye at center) the branch divides the zero view
vector by zero, which the counterexample records as the none result. -/
theorem trackball_zoom_degenerate_handled (wUp : Vec3) (d : ℝ) (cam : Camera)
    (h : 0 < camDist cam) :
    ∃ b cam2, trackballUpdate wUp ⟨false, true, (d, 0)⟩ cam = some (b, cam2) ∧
      0 < camDist cam2 := by
  by_cases hd : d = 0
  · subst hd
    exact ⟨false, cam, zoomSeq_step_zero wUp cam, h⟩
  · refine ⟨true, _, trackball_zoom_eq wUp d cam hd (ne_of_gt h), ?_⟩
    rw [dist_after_zoom cam wUp _ h (clampZoom_lt _ _ h)]
    exact clampZoom_dist_pos _ _ h

/-- Claim C7 witness: the unit-distance camera zooms in by one frame without
hitting the division and keeps a positive distance. -/
theorem trackball_zoom_degenerate_handled_witness :
    0 < camDist cameraAtUnitZ ∧
      ∃ b cam2, trackballUpdate worldUpY ⟨false, true, (1, 0)⟩ cameraAtUnitZ
          = some (b, cam2) ∧ 0 < camDist cam2 := by
  have h : 0 < camDist cameraAtUnitZ := by rw [camDist_cameraAtUnitZ]; norm_num
  exact ⟨h, trackball_zoom_degenerate_handled worldUpY 1 cameraAtUnitZ h⟩

/-- Claim C7 counterexample: with the eye exactly at the center the zoom
branch reaches viewVector / viewLength with viewLength = 0 — the modelled
update returns none (the C++ float code would produce a NaN eye), so the
claim that no division by zero happens for every camera state fails at this
state. -/
theorem trackball_zoom_divzero_at_center :
    trackballUpdate ⟨0, 1, 0⟩ ⟨false, true, (1, 0)⟩ ⟨⟨0, 0, 0⟩, ⟨0, 0, 0⟩, ⟨0, 1, 0⟩⟩ = none := by
  simp only [trackballUpdate]
  rw [if_neg (by norm_num), if_neg (by simp), if_pos trivial, if_neg (by norm_num),
    if_pos (by simp [Vec3.norm, Vec3.dot])]

/-- Repeated zoom-out frames with the same negative delta grow the distance
by the exact per-frame amount each time. -/
theorem zoomSeq_replicate_dist (wUp : Vec3) (d : ℝ) (hd : d < 0) :
    ∀ (n : Nat) (cam : Camera), 0 < camDist cam →
      ∃ cam2, zoomSeq wUp (List.replicate n d) cam = some cam2 ∧
        camDist cam2 = camDist cam + n * |(1 / 100) * d| := by
  intro n
  induction n with
  | zero => intro cam h; exact ⟨cam, rfl, by simp⟩
  | succ n ih =>
    intro cam h
    have hd0 : d ≠ 0 := ne_of_lt hd
    have hneg : (1 / 100 : ℝ) * d < 0 := by nlinarith
    have hstep := trackball_zoom_eq wUp d cam hd0 (ne_of_gt h)
    have hclamp : clampZoom ((1 / 100) * d) (camDist cam) = (1 / 100) * d :=
      clampZoom_of_nonpos _ _ (le_of_lt hneg)
    have hdist := dist_after_zoom cam wUp (clampZoom ((1 / 100) * d) (camDist cam)) h
      (clampZoom_lt _ _ h)
    rw [hclamp] at hdist hstep
    simp only [List.replicate_succ, zoomSeq, hstep]
    obtain ⟨cam2, hseq, hdist2⟩ := ih _ (by rw [hdist]; linarith)
    refine ⟨cam2, hseq, ?_⟩
    rw [hdist2, hdist, abs_of_neg hneg]
    push_cast
    ring

/-- Claim C10: a zoom-out frame (negative cursor-delta x, so negative
horizontalMovement) is never clamped — the eye is translated by exactly
horizontalMovement along normalize(center - eye), the distance grows by
exactly |horizontalMovement|, and repeating the frame exceeds any bound. -/
theorem trackball_zoom_out_unclamped_unbounded (wUp : Vec3) (d : ℝ) (cam : Camera)
    (hd : d < 0) (h : 0 < camDist cam) :
    (trackballUpdate wUp ⟨false, true, (d, 0)⟩ cam =
      some (true, ⟨cam.eye + ((1 / 100) * d) • ((camDist cam)⁻¹ • (cam.center - cam.eye)),
        cam.center, wUp⟩))
    ∧ camDist ⟨cam.eye + ((1 / 100) * d) • ((camDist cam)⁻¹ • (cam.center - cam.eye)),
        cam.center, wUp⟩ = camDist cam + |(1 / 100) * d|
    ∧ ∀ M : ℝ, ∃ n cam2, zoomSeq wUp (List.replicate n d) cam = some cam2 ∧ M < camDist cam2 := by
  have hd0 : d ≠ 0 := ne_of_lt hd
  have hneg : (1 / 100 : ℝ) * d < 0 := by nlinarith
  have hclamp : clampZoom ((1 / 100) * d) (camDist cam) = (1 / 100) * d :=
    clampZoom_of_nonpos _ _ (le_of_lt hneg)
  have hstep := trackball_zoom_eq wUp d cam hd0 (ne_of_gt h)
  rw [hclamp] at hstep
  have hdist := dist_after_zoom cam wUp (clampZoom ((1 / 100) * d) (camDist cam)) h
    (clampZoom_lt _ _ h)
  rw [hclamp] at hdist
  refine ⟨hstep, by rw [hdist, abs_of_neg hneg]; ring, ?_⟩
  intro M
  have hq : 0 < |(1 / 100 : ℝ) * d| := abs_pos.mpr (ne_of_lt hneg)
  obtain ⟨n, hn⟩ := exists_nat_gt ((M - camDist cam) / |(1 / 100 : ℝ) * d|)
  obtain ⟨cam2, hseq, hdist2⟩ := zoomSeq_replicate_dist wUp d hd n cam h
  refine ⟨n, cam2, hseq, ?_⟩
  rw [hdist2]
  have := (div_lt_iff₀ hq).mp hn
  linarith

/-- Claim C10 witness: from the unit-distance camera, a zoom-out frame with
cursor-delta x = -1 moves the eye back by exactly 0.01 and the distance can
exceed the bound 5 after enough repeats. -/
theorem trackball_zoom_out_unclamped_unbounded_witness :
    (-1 : ℝ) < 0 ∧ 0 < camDist cameraAtUnitZ ∧
      ∀ M : ℝ, ∃ n cam2, zoomSeq worldUpY (List.replicate n (-1)) cameraAtUnitZ
          = some cam2 ∧ M < camDist cam2 := by
  have h : 0 < camDist cameraAtUnitZ := by rw [camDist_cameraAtUnitZ]; norm_num
  exact ⟨by norm_num, h,
    (trackball_zoom_out_unclamped_unbounded worldUpY (-1) cameraAtUnitZ (by norm_num) h).2.2⟩

/-- Claim C8: for every modifier-key combination and every camera, a
trackball update frame with cursor delta (0,0) returns false and leaves the
camera untouched — the zero-movement test precedes every modifier check, so
the modifier Booleans are universally quantified here. -/
theorem trackball_zero_delta_false (wUp : Vec3) (shift ctrl : Bool) (cam : Camera) :
    trackballUpdate wUp ⟨shift, ctrl, (0, 0)⟩ cam = some (false, cam) := by
  simp [trackballUpdate]

/-- Claim C6: for every primitive, an indexed draw (glDrawElements) is
issued when the primitive declares an index accessor (indices >= 0), with
element count and component type read from that accessor and byte offset
accessor.byteOffset + bufferView.byteOffset; otherwise a non-indexed draw
(glDrawArrays) is issued whose vertex count is the count of the first
attribute accessor. -/
theorem draw_primitive_params (accessors : List GAccessor) (bufferViews : List GBufferView)
    (p : GPrimitive) :
    (∀ accessor bufferView, 0 ≤ p.indices →
      accessors[p.indices.toNat]? = some accessor →
      bufferViews[accessor.bufferView]? = some bufferView →
      drawPrimitive accessors bufferViews p =
        some (DrawCall.elements p.mode accessor.count accessor.componentType
          (accessor.byteOffset + bufferView.byteOffset)))
    ∧ (∀ accessorIdx accessor, p.indices < 0 →
      p.attributes.head? = some accessorIdx →
      accessors[accessorIdx]? = some accessor →
      drawPrimitive accessors bufferViews p = some (DrawCall.arrays p.mode 0 accessor.count)) := by
  constructor
  · intro accessor bufferView hge hacc hbv
    simp [drawPrimitive, hge, hacc, hbv]
  · intro accessorIdx accessor hlt hhead hacc
    simp [drawPrimitive, not_le.mpr hlt, hhead, hacc]

/-- Claim C6 witness: the two synthetic primitives of the spec test, one of
each kind, yield the claimed draw parameters (indexed: count 36, type 5123,
offset 8 + 100; non-indexed: count 24 from the attribute accessor). -/
theorem draw_primitive_params_witness :
    drawPrimitive exampleAccessors exampleBufferViews examplePrimIndexed
        = some (DrawCall.elements 4 36 5123 108) ∧
      drawPrimitive exampleAccessors exampleBufferViews examplePrimNonIndexed
        = some (DrawCall.arrays 4 0 24) :=
  ⟨(draw_primitive_params exampleAccessors exampleBufferViews examplePrimIndexed).1
      ⟨0, 8, 5123, 36⟩ ⟨0, 100, 0, 34963⟩ (by decide) (by decide) (by decide),
    (draw_primitive_params exampleAccessors exampleBufferViews examplePrimNonIndexed).2
      1 ⟨1, 0, 5126, 24⟩ (by decide) (by decide) (by decide)⟩

/-- Claim C9: when the light is camera-attached the written view-space light
direction is exactly (0,0,1) whatever the view matrix and world direction;
otherwise it is the normalized image of the world direction under the linear
part of the view matrix (the translation column is cancelled by the zero
homogeneous coordinate of vec4(dir, 0)). -/
theorem drawScene_light_direction (viewMatrix : Mat4 ℝ) (lightDirection : Vec3) :
    drawSceneLightDir true viewMatrix lightDirection = ⟨0, 0, 1⟩
    ∧ drawSceneLightDir false viewMatrix lightDirection = Vec3.normalize
        ⟨viewMatrix.m00 * lightDirection.x + viewMatrix.m01 * lightDirection.y
            + viewMatrix.m02 * lightDirection.z,
         viewMatrix.m10 * lightDirection.x + viewMatrix.m11 * lightDirection.y
            + viewMatrix.m12 * lightDirection.z,
         viewMatrix.m20 * lightDirection.x + viewMatrix.m21 * lightDirection.y
            + viewMatrix.m22 * lightDirection.z⟩ := by
  refine ⟨rfl, ?_⟩
  simp only [drawSceneLightDir, if_neg (by simp : ¬(false : Bool) = true)]
  congr 1
  ext <;> simp [Mat4.mulVec4, Vec4.dir, Vec4.toVec3]

/-- Extensionality for the camera record. -/
@[ext] theorem Camera.extFields {a b : Camera} (he : a.eye = b.eye)
    (hc : a.center = b.center) (hu : a.up = b.up) : a = b := by
  cases a; cases b; simp_all

/-- Zero-argument moveLocal is the identity on the camera. -/
theorem moveLocal_zero (cam : Camera) : cam.moveLocal 0 0 0 = cam := by
  simp only [Camera.moveLocal]
  ext <;> simp

/-- Claim C4: an orbit frame (no modifier, nonzero cursor delta) rotates the
radius vector eye - center first by verticalMovement radians about the
cameras current left axis, then by -horizontalMovement radians about the
world-up axis (pitch strictly before yaw), sets the new eye to center plus
the rotated radius vector, and keeps the center.  The unit-norm hypotheses
record the Camera invariant that the left axis (and the fixed world-up
member) are unit vectors, under which the glm matrices the source builds act
as exactly these Rodrigues rotations. -/
theorem trackball_orbit_pitch_then_yaw (wUp : Vec3) (dx dy : ℝ) (cam : Camera)
    (hmoved : ¬(dx = 0 ∧ dy = 0))
    (hleft : Vec3.norm cam.left = 1) (hup : Vec3.norm wUp = 1) :
    trackballUpdate wUp ⟨false, false, (dx, dy)⟩ cam =
      some (true, ⟨cam.center + rotateVec (-((1 / 100) * dx)) wUp
        (rotateVec ((1 / 100) * dy) cam.left (cam.eye - cam.center)), cam.center, wUp⟩) := by
  have hc : ¬((1 / 100 : ℝ) * dx = 0 ∧ (1 / 100 : ℝ) * dy = 0) := by
    rintro ⟨h1, h2⟩
    apply hmoved
    constructor
    · rcases mul_eq_zero.mp h1 with h | h
      · norm_num at h
      · exact h
    · rcases mul_eq_zero.mp h2 with h | h
      · norm_num at h
      · exact h
  simp only [trackballUpdate]
  rw [if_neg hc, if_neg (by simp), if_neg (by simp)]
  rw [glmRotate_dir_eq_rotateVec _ _ _ hleft, glmRotate_dir_eq_rotateVec _ _ _ hup]

/-- Concrete left axis of the unit-distance camera. -/
theorem left_cameraAtUnitZ : Camera.left cameraAtUnitZ = ⟨-1, 0, 0⟩ := by
  have hsub : cameraAtUnitZ.center - cameraAtUnitZ.eye = ⟨0, 0, -1⟩ := by
    simp only [cameraAtUnitZ, Vec3.sub_def]
    norm_num
  have hn1 : Vec3.norm ⟨0, 0, -1⟩ = 1 := by
    simp only [Vec3.norm, Vec3.dot]
    norm_num
  have hfront : Camera.front cameraAtUnitZ = ⟨0, 0, -1⟩ := by
    rw [Camera.front, hsub, Vec3.normalize_of_norm_one hn1]
  have hcross : Vec3.cross cameraAtUnitZ.up (Camera.front cameraAtUnitZ) = ⟨-1, 0, 0⟩ := by
    rw [hfront]
    simp only [cameraAtUnitZ, Vec3.cross]
    norm_num
  have hn2 : Vec3.norm ⟨-1, 0, 0⟩ = 1 := by
    simp only [Vec3.norm, Vec3.dot]
    norm_num
  rw [Camera.left, hcross, Vec3.normalize_of_norm_one hn2]

/-- The world-up axis (0,1,0) is a unit vector. -/
theorem norm_worldUpY : Vec3.norm worldUpY = 1 := by
  simp only [worldUpY, Vec3.norm, Vec3.dot]
  norm_num

/-- Claim C4 witness: the numeric configuration of the spec (unit-distance
camera, cursor delta (1,1)) satisfies the hypotheses and the orbit frame
equals the pitch-then-yaw composition there. -/
theorem trackball_orbit_witness :
    ¬((1 : ℝ) = 0 ∧ (1 : ℝ) = 0) ∧ Vec3.norm (Camera.left cameraAtUnitZ) = 1 ∧
      Vec3.norm worldUpY = 1 ∧
      trackballUpdate worldUpY ⟨false, false, (1, 1)⟩ cameraAtUnitZ =
        some (true, ⟨cameraAtUnitZ.center + rotateVec (-((1 / 100) * 1)) worldUpY
          (rotateVec ((1 / 100) * 1) (Camera.left cameraAtUnitZ)
            (cameraAtUnitZ.eye - cameraAtUnitZ.center)), cameraAtUnitZ.center, worldUpY⟩) := by
  have hmoved : ¬((1 : ℝ) = 0 ∧ (1 : ℝ) = 0) := by norm_num
  have hl : Vec3.norm (Camera.left cameraAtUnitZ) = 1 := by
    rw [left_cameraAtUnitZ]
    simp only [Vec3.norm, Vec3.dot]
    norm_num
  exact ⟨hmoved, hl, norm_worldUpY,
    trackball_orbit_pitch_then_yaw worldUpY 1 1 cameraAtUnitZ hmoved hl norm_worldUpY⟩

/-- Claim C5: the first-person update returns false exactly when all six
accumulated quantities are zero (the hasMoved float-truthiness test of the
source), leaves the camera untouched in that case, and otherwise returns
true after applying moveLocal, then rotateLocal(roll, tilt, 0), then
rotateWorld(pan, worldUp), in that fixed order. -/
theorem firstperson_update_spec (wUp : Vec3) (speed elapsedTime : ℝ)
    (inp : FirstPersonInput) (cam : Camera) :
    ((firstPersonUpdate wUp speed elapsedTime inp cam).1 = false ↔
      fpTruckLeft speed elapsedTime inp = 0 ∧ fpPedestalUp speed elapsedTime inp = 0 ∧
        fpDollyIn speed elapsedTime inp = 0 ∧ fpRollRightAngle inp = 0 ∧
        fpPanLeftAngle inp = 0 ∧ fpTiltDownAngle inp = 0)
    ∧ ((firstPersonUpdate wUp speed elapsedTime inp cam).1 = false →
        (firstPersonUpdate wUp speed elapsedTime inp cam).2 = cam)
    ∧ (¬(fpTruckLeft speed elapsedTime inp = 0 ∧ fpPedestalUp speed elapsedTime inp = 0 ∧
          fpDollyIn speed elapsedTime inp = 0 ∧ fpRollRightAngle inp = 0 ∧
          fpPanLeftAngle inp = 0 ∧ fpTiltDownAngle inp = 0) →
        firstPersonUpdate wUp speed elapsedTime inp cam =
          (true, ((cam.moveLocal (fpTruckLeft speed elapsedTime inp)
              (fpPedestalUp speed elapsedTime inp) (fpDollyIn speed elapsedTime inp)).rotateLocal
              (fpRollRightAngle inp) (fpTiltDownAngle inp) 0).rotateWorld
              (fpPanLeftAngle inp) wUp)) := by
  simp only [firstPersonUpdate]
  by_cases h : fpTruckLeft speed elapsedTime inp ≠ 0 ∨ fpPedestalUp speed elapsedTime inp ≠ 0 ∨
      fpDollyIn speed elapsedTime inp ≠ 0 ∨ fpPanLeftAngle inp ≠ 0 ∨
      fpTiltDownAngle inp ≠ 0 ∨ fpRollRightAngle inp ≠ 0
  · rw [if_pos h]
    refine ⟨⟨fun hf => absurd hf (by simp), fun hz => ?_⟩, fun hf => absurd hf (by simp),
      fun hnz => rfl⟩
    obtain ⟨h1, h2, h3, h4, h5, h6⟩ := hz
    exact absurd h (by simp [h1, h2, h3, h4, h5, h6])
  · rw [if_neg h]
    push_neg at h
    obtain ⟨h1, h2, h3, h4, h5, h6⟩ := h
    exact ⟨⟨fun _ => ⟨h1, h2, h3, h6, h4, h5⟩, fun _ => rfl⟩, fun _ => rfl,
      fun hnz => absurd ⟨h1, h2, h3, h6, h4, h5⟩ hnz⟩

/-- Claim C5 witness: with only W held (dollyIn = speed * time = 1 nonzero)
the update applies the three motion primitives in order and returns true. -/
theorem firstperson_update_spec_witness :
    firstPersonUpdate worldUpY 1 1 exampleInputW cameraAtUnitZ =
      (true, ((cameraAtUnitZ.moveLocal (fpTruckLeft 1 1 exampleInputW)
          (fpPedestalUp 1 1 exampleInputW) (fpDollyIn 1 1 exampleInputW)).rotateLocal
          (fpRollRightAngle exampleInputW) (fpTiltDownAngle exampleInputW) 0).rotateWorld
          (fpPanLeftAngle exampleInputW) worldUpY) :=
  (firstperson_update_spec worldUpY 1 1 exampleInputW cameraAtUnitZ).2.2
    (by simp [fpDollyIn, exampleInputW])

/-- Claim C3 (amended): the Boolean the two update functions return reflects
the input motion quantities, not an actual change of the stored camera.
First-person update returns true exactly when some accumulated quantity is
nonzero; trackball update returns true exactly when the scaled cursor delta
is nonzero and, in the zoom case (Ctrl without Shift), its x component is
nonzero.  The counterexample shows a returned true with the camera value
unchanged, so "true if and only if the camera changed" does not hold. -/
theorem update_true_iff_motion_inputs :
    (∀ (wUp : Vec3) (speed elapsedTime : ℝ) (inp : FirstPersonInput) (cam : Camera),
      (firstPersonUpdate wUp speed elapsedTime inp cam).1 = true ↔
        ¬(fpTruckLeft speed elapsedTime inp = 0 ∧ fpPedestalUp speed elapsedTime inp = 0 ∧
          fpDollyIn speed elapsedTime inp = 0 ∧ fpRollRightAngle inp = 0 ∧
          fpPanLeftAngle inp = 0 ∧ fpTiltDownAngle inp = 0))
    ∧ (∀ (wUp : Vec3) (inp : TrackballInput) (cam : Camera) (r : Bool × Camera),
      trackballUpdate wUp inp cam = some r →
        (r.1 = true ↔
          ¬((1 / 100 : ℝ) * inp.cursorDelta.1 = 0 ∧ (1 / 100 : ℝ) * inp.cursorDelta.2 = 0)
            ∧ (inp.shiftHeld = true ∨ inp.ctrlHeld = false ∨
                (1 / 100 : ℝ) * inp.cursorDelta.1 ≠ 0))) := by
  constructor
  · intro wUp speed elapsedTime inp cam
    simp only [firstPersonUpdate]
    by_cases h : fpTruckLeft speed elapsedTime inp ≠ 0 ∨ fpPedestalUp speed elapsedTime inp ≠ 0 ∨
        fpDollyIn speed elapsedTime inp ≠ 0 ∨ fpPanLeftAngle inp ≠ 0 ∨
        fpTiltDownAngle inp ≠ 0 ∨ fpRollRightAngle inp ≠ 0
    · rw [if_pos h]
      simp only [true_iff]
      rintro ⟨h1, h2, h3, h4, h5, h6⟩
      exact absurd h (by simp [h1, h2, h3, h4, h5, h6])
    · rw [if_neg h]
      push_neg at h
      obtain ⟨h1, h2, h3, h4, h5, h6⟩ := h
      simp only [show (false = true) ↔ False by simp, false_iff, not_not]
      exact ⟨h1, h2, h3, h6, h4, h5⟩
  · intro wUp inp cam r h
    simp only [trackballUpdate] at h
    by_cases h1 : (1 / 100 : ℝ) * inp.cursorDelta.1 = 0 ∧ (1 / 100 : ℝ) * inp.cursorDelta.2 = 0
    · rw [if_pos h1] at h
      obtain rfl := Option.some.inj h
      exact iff_of_false (by simp) (fun hx => hx.1 h1)
    · rw [if_neg h1] at h
      by_cases h2 : inp.shiftHeld = true
      · rw [if_pos h2] at h
        obtain rfl := Option.some.inj h
        exact iff_of_true rfl ⟨h1, Or.inl h2⟩
      · rw [if_neg h2] at h
        by_cases h3 : inp.ctrlHeld = true
        · rw [if_pos h3] at h
          by_cases h4 : (1 / 100 : ℝ) * inp.cursorDelta.1 = 0
          · rw [if_pos h4] at h
            obtain rfl := Option.some.inj h
            refine iff_of_false (by simp) (fun hx => ?_)
            rcases hx.2 with hs | hcf | hm0
            · exact h2 hs
            · simp [h3] at hcf
            · exact hm0 h4
          · rw [if_neg h4] at h
            by_cases h5 : Vec3.norm (cam.center - cam.eye) = 0
            · rw [if_pos h5] at h
              exact absurd h (by simp)
            · rw [if_neg h5] at h
              obtain rfl := Option.some.inj h
              exact iff_of_true rfl ⟨h1, Or.inr (Or.inr h4)⟩
        · rw [if_neg h3] at h
          obtain rfl := Option.some.inj h
          exact iff_of_true rfl ⟨h1, Or.inr (Or.inl (by simpa using h3))⟩

/-- Claim C3 witness: the amended equivalence instantiated at a zero-delta
trackball frame, whose update result some (false, cam) discharges the
hypothesis. -/
theorem update_true_iff_motion_inputs_witness :
    ((false, cameraAtUnitZ) : Bool × Camera).1 = true ↔
      ¬((1 / 100 : ℝ) * 0 = 0 ∧ (1 / 100 : ℝ) * 0 = 0)
        ∧ (false = true ∨ false = false ∨ (1 / 100 : ℝ) * 0 ≠ 0) :=
  update_true_iff_motion_inputs.2 worldUpY ⟨false, false, (0, 0)⟩ cameraAtUnitZ
    (false, cameraAtUnitZ) (by simp [trackballUpdate])

/-- Claim C3 counterexample: a trackball pan frame with cursor delta (0, 1)
(Shift held) returns true although the recomputed camera equals the stored
one — moveLocal with horizontalMovement = 0 translates by the zero vector —
so update returning true does not imply the call changed the camera. -/
theorem trackball_pan_true_without_change :
    trackballUpdate worldUpY ⟨true, false, ((0 : ℝ), (1 : ℝ))⟩ cameraAtUnitZ
      = some (true, cameraAtUnitZ) := by
  simp only [trackballUpdate]
  rw [if_neg (by norm_num), if_pos trivial]
  rw [show (1 / 100 : ℝ) * 0 = 0 by norm_num, moveLocal_zero]

end GltfViewer

